import Mathlib

set_option maxHeartbeats 1000000

/-!
Verification of the filter/predicate compiler, sort normalizer and
mutation-safety guard of the sqlalchemy-crud-plus repository
(sqlalchemy_crud_plus/my_utils.py and sqlalchemy_crud_plus/my_crud.py).

The storage collaborator (the SQLAlchemy session and its statement
execution) is external to the repository and is modelled abstractly as a
`Storage` record of opaque executors, exactly as the specification
prescribes ("execute a predicate-bearing statement, return rows or a row
count"). Everything this layer computes itself (key splitting, operator
lookup and validation, predicate construction, sort normalization, the
guard-then-mutate orchestration) is translated directly from the source.
-/

/-- Python values that can appear in a filter specification: scalars,
sequences (list, tuple, set are distinguished because the source
checks `isinstance(value, (tuple, list, set))`), and string-keyed
mappings (insertion-ordered, as Python dicts are). -/
inductive FValue where
  | pynone : FValue
  | int : Int → FValue
  | str : String → FValue
  | bool : Bool → FValue
  | list : List FValue → FValue
  | tuple : List FValue → FValue
  | set : List FValue → FValue
  | dict : List (String × FValue) → FValue

/-- Symbolic SQLAlchemy expression objects. The source builds expressions
by looking a builder up in `_SUPPORTED_FILTERS` and applying it as
`builder(column)(args...)`; we record that application symbolically as
`FExpr.app op target args`. `or_(*xs)` and `and_(*xs)` become `orAll`
and `andAll`. -/
inductive FExpr where
  | column : String → FExpr
  | lit : FValue → FExpr
  | app : String → FExpr → List FExpr → FExpr
  | orAll : List FExpr → FExpr
  | andAll : List FExpr → FExpr

/-- The exceptions the compiled code can raise. `SelectOperatorError`,
`ModelColumnError`, `ColumnSortError` come from the repository's errors
module; `MultipleResultsError` guards mutations; `ValueError`,
`TypeError` and `AttributeError` are the Python builtins raised by
`apply_sorting`, by calling a missing (None) builder, and by calling
`.items()` on a non-mapping. -/
inductive PyError where
  | selectOperatorError : String → PyError
  | modelColumnError : String → PyError
  | columnSortError : String → PyError
  | valueError : String → PyError
  | multipleResultsError : String → PyError
  | typeError : String → PyError
  | attributeError : String → PyError
deriving DecidableEq

/-- The keys of the `_SUPPORTED_FILTERS` dict, in source order. -/
def supportedFilters : List String :=
  ["gt", "lt", "ge", "le", "eq", "ne", "between", "in", "not_in", "is",
   "is_not", "is_distinct_from", "is_not_distinct_from", "like", "not_like",
   "ilike", "not_ilike", "startswith", "endswith", "contains", "match",
   "concat", "add", "radd", "sub", "rsub", "mul", "rmul", "truediv",
   "rtruediv", "floordiv", "rfloordiv", "mod", "rmod"]

/-- The operators whose value must be a tuple, list, or set
(my_utils.py line 57). -/
def seqValueOps : List String := ["in", "not_in", "between"]

/-- The arithmetic operators rejected when nested (my_utils.py line 60). -/
def arithmeticOps : List String :=
  ["add", "radd", "sub", "rsub", "mul", "rmul", "truediv", "rtruediv",
   "floordiv", "rfloordiv", "mod", "rmod"]

/-- Result of `isinstance(value, (tuple, list, set))`. -/
def isSeqValue : FValue → Bool
  | .tuple _ => true
  | .list _ => true
  | .set _ => true
  | _ => false

/-- Python sequence unpacking `*value` of a tuple, list, or set. -/
def elems : FValue → List FValue
  | .list xs => xs
  | .tuple xs => xs
  | .set xs => xs
  | _ => []

/-- Python dict lookup `d[k]` (first match; Python dict keys are unique).
Total with a dummy default: every use site is guarded so the key exists. -/
def dictGet : FValue → String → FValue
  | .dict es, k => ((es.find? (fun p => p.1 = k)).map Prod.snd).getD .pynone
  | _, _ => .pynone

/-- The test of the advanced branch (my_utils.py line 98):
value is a dict and the set of strings value and condition is a
subset of its keys. -/
def isAdvanced : FValue → Bool
  | .dict es => (es.any (fun p => p.1 = "value")) && (es.any (fun p => p.1 = "condition"))
  | _ => false

/-- The diagnostic emitted for an unsupported operator
(my_utils.py lines 65-68). -/
def unsupportedWarning (op : String) : String :=
  "The operator <" ++ op ++ "> is not supported. Supported operators: " ++
    String.intercalate ", " supportedFilters ++ "."

/-- Embedding of `get_sqlalchemy_filter` (my_utils.py lines 51-69).
Returns the raised exception, or the optional builder (identified by its
operator name, since application is symbolic) together with the warnings
emitted on the way. -/
def get_sqlalchemy_filter (op : String) (value : FValue) (allowArithmetic : Bool) :
    Except PyError (Option String) × List String :=
  if op ∈ seqValueOps ∧ isSeqValue value = false then
    (.error (.selectOperatorError
      ("The value for <" ++ op ++ "> must be tuple, list, or set.")), [])
  else if op ∈ arithmeticOps ∧ allowArithmetic = false then
    (.error (.selectOperatorError
      ("Nested arithmetic operations are not allowed: " ++ op)), [])
  else if op ∈ supportedFilters then
    (.ok (some op), [])
  else
    (.ok none, [unsupportedWarning op])

/-- Embedding of `get_column` (my_utils.py lines 71-78). A model is its
list of column names; getattr succeeds exactly on those. -/
def get_column (model : List String) (field_name : String) : Except PyError FExpr :=
  if field_name ∈ model then .ok (FExpr.column field_name)
  else .error (.modelColumnError ("Column " ++ field_name ++ " not found in model."))

/-- Splitting a character list at the last occurrence of two consecutive
underscores: the embedding of Python `key.rsplit(chr(95)*2, 1)` restricted
to one split. Returns none when the list has no such occurrence, which is
exactly the test of the delimiter being a substring of the key. -/
def rsplitOnceL : List Char → Option (List Char × List Char)
  | [] => none
  | c :: rest =>
    match rsplitOnceL rest with
    | some (f, o) => some (c :: f, o)
    | none =>
      if c = '_' ∧ rest.head? = some '_' then some ([], rest.tail) else none

/-- Embedding of the delimiter test and split of my_utils.py lines 86-87:
some (field_name, op) when the key contains the delimiter, split at the
last occurrence; none otherwise. -/
def rsplitKey (key : String) : Option (String × String) :=
  match rsplitOnceL key.data with
  | some (f, o) => some (String.mk f, String.mk o)
  | none => none

/-- Embedding of the or-group comprehension (my_utils.py lines 92-96):
per inner entry, look the builder up (which may raise on a bad sequence
value, or warn and yield none, in which case the entry is skipped) and
apply it to the column and the inner value. -/
def orFold (column : FExpr) :
    List (String × FValue) → Except PyError (List FExpr) × List String
  | [] => (.ok [], [])
  | (or_op, or_value) :: rest =>
    match get_sqlalchemy_filter or_op or_value true with
    | (.error e, ws) => (.error e, ws)
    | (.ok fopt, w1) =>
      match orFold column rest with
      | (.error e, ws) => (.error e, w1 ++ ws)
      | (.ok fs, ws) =>
        match fopt with
        | some f => (.ok (FExpr.app f column [FExpr.lit or_value] :: fs), w1 ++ ws)
        | none => (.ok fs, w1 ++ ws)

/-- Embedding of the condition loop of the advanced branch (my_utils.py
lines 101-108). Per entry: look the condition builder up with
allow_arithmetic false (line 103, which raises on nested arithmetic);
then evaluate the line-105 expression, whose argument
`sqlalchemy_filter(column)(advanced_value)` raises TypeError when the
outer builder is None, and whose head call raises TypeError when the
condition builder is None; `between` condition values are unpacked
positionally. -/
def condFold (outer : Option String) (column : FExpr) (advanced_value : FValue) :
    List (String × FValue) → Except PyError (List FExpr) × List String
  | [] => (.ok [], [])
  | (cond_op, cond_value) :: rest =>
    match get_sqlalchemy_filter cond_op cond_value false with
    | (.error er, ws) => (.error er, ws)
    | (.ok cfopt, w1) =>
      match outer with
      | none => (.error (.typeError "NoneType object is not callable"), w1)
      | some aop =>
        match cfopt with
        | none => (.error (.typeError "NoneType object is not callable"), w1)
        | some cf =>
          let arith := FExpr.app aop column [FExpr.lit advanced_value]
          let built :=
            if cond_op = "between"
            then FExpr.app cf arith ((elems cond_value).map FExpr.lit)
            else FExpr.app cf arith [FExpr.lit cond_value]
          match condFold outer column advanced_value rest with
          | (.error er, ws) => (.error er, w1 ++ ws)
          | (.ok fs, ws) => (.ok (built :: fs), w1 ++ ws)

/-- Embedding of one iteration of the parse_filters loop (my_utils.py
lines 85-116): the filters this key appends and the warnings it emits,
or the exception it raises (with the warnings emitted before the raise). -/
def processKey (model : List String) (key : String) (value : FValue) :
    Except PyError (List FExpr) × List String :=
  match rsplitKey key with
  | none =>
    match get_column model key with
    | .error e => (.error e, [])
    | .ok column => (.ok [FExpr.app "eq" column [FExpr.lit value]], [])
  | some (field_name, op) =>
    match get_column model field_name with
    | .error e => (.error e, [])
    | .ok column =>
      match get_sqlalchemy_filter op value true with
      | (.error e, ws) => (.error e, ws)
      | (.ok sqlalchemy_filter, w1) =>
        if op = "or" then
          match value with
          | .dict entries =>
            match orFold column entries with
            | (.error e, ws) => (.error e, w1 ++ ws)
            | (.ok or_filters, ws) => (.ok [FExpr.orAll or_filters], w1 ++ ws)
          | _ => (.error (.attributeError "value has no attribute items"), w1)
        else if isAdvanced value then
          match dictGet value "condition" with
          | FValue.dict centries =>
            match condFold sqlalchemy_filter column (dictGet value "value") centries with
            | (.error e, ws) => (.error e, w1 ++ ws)
            | (.ok cfs, ws) => (.ok [FExpr.andAll cfs], w1 ++ ws)
          | _ => (.error (.attributeError "condition has no attribute items"), w1)
        else
          match sqlalchemy_filter with
          | some f =>
            (.ok [if op = "between"
                  then FExpr.app f column ((elems value).map FExpr.lit)
                  else FExpr.app f column [FExpr.lit value]], w1)
          | none => (.ok [], w1)

/-- Embedding of `parse_filters` (my_utils.py lines 80-117) over an
insertion-ordered keyword mapping: the compiled predicate list, or the
first exception raised, together with all warnings emitted before
returning or raising. -/
def parse_filters (model : List String) :
    List (String × FValue) → Except PyError (List FExpr) × List String
  | [] => (.ok [], [])
  | (k, v) :: rest =>
    match processKey model k v with
    | (.error e, ws) => (.error e, ws)
    | (.ok fs, ws) =>
      match parse_filters model rest with
      | (res, ws2) => (res.map (fun fs2 => fs ++ fs2), ws ++ ws2)

/-- An ordering clause appended to a statement by `apply_sorting`:
ascending or descending on a named column. -/
inductive OrderClause where
  | ascOf : String → OrderClause
  | descOf : String → OrderClause
deriving DecidableEq

/-- A Python value of type `Union[str, List[str]]`. -/
inductive StrOrList where
  | s : String → StrOrList
  | l : List String → StrOrList
deriving DecidableEq

/-- Python truthiness of a string or list of strings. -/
def truthy : StrOrList → Bool
  | .s x => !(x = "")
  | .l xs => !xs.isEmpty

/-- Python truthiness of an optional string-or-list (None is falsy). -/
def truthyO : Option StrOrList → Bool
  | none => false
  | some x => truthy x

/-- Singleton promotion: a bare string becomes a one-element list
(my_utils.py lines 132 and 136); None contributes nothing. -/
def promoteO : Option StrOrList → List String
  | none => []
  | some (.s x) => [x]
  | some (.l xs) => xs

/-- The ordering loop of `apply_sorting` (my_utils.py lines 141-143):
resolve each column (raising ModelColumnError on a miss) and append an
ascending clause when the direction equals the string asc, a descending
clause for any other direction string. -/
def sortLoop (model : List String) (stmt : List OrderClause) :
    List (String × String) → Except PyError (List OrderClause)
  | [] => .ok stmt
  | (c, o) :: rest =>
    match get_column model c with
    | .error e => .error e
    | .ok _ =>
      sortLoop model
        (stmt ++ [if o = "asc" then OrderClause.ascOf c else OrderClause.descOf c]) rest

/-- Embedding of `apply_sorting` (my_utils.py lines 119-144). The guards
follow Python truthiness exactly: an empty list or empty string counts
as absent. -/
def apply_sorting (model : List String) (stmt : List OrderClause)
    (sort_columns sort_orders : Option StrOrList) : Except PyError (List OrderClause) :=
  if truthyO sort_orders = true ∧ truthyO sort_columns = false then
    .error (.valueError "Sort orders provided without corresponding sort columns.")
  else if truthyO sort_columns = true then
    let cols := promoteO sort_columns
    if truthyO sort_orders = true then
      let ords := promoteO sort_orders
      if cols.length ≠ ords.length then
        .error (.columnSortError "The length of sort_columns and sort_orders must match.")
      else sortLoop model stmt (cols.zip ords)
    else sortLoop model stmt (cols.zip (List.replicate cols.length "asc"))
  else .ok stmt

/-- A stored row: a mapping from column names to values. -/
abbrev Row := List (String × FValue)

/-- The opaque storage collaborator (the SQLAlchemy session): executing a
count statement, an update statement (where-clauses, values to set), or a
delete statement against the stored rows. Update and delete return the
reported affected-row count together with the new row store. The CRUD
layer under verification never looks inside these. -/
structure Storage where
  runCount : List FExpr → List Row → Nat
  runUpdate : List FExpr → List (String × FValue) → List Row → Nat × List Row
  runDelete : List FExpr → List Row → Nat × List Row

/-- Embedding of `CRUDPlus.update_model_by_column` (my_crud.py lines
101-120): compile filters, count, guard against multi-row updates, then
execute and return the reported rowcount. The second component is the
row store after the call (unchanged when an exception is raised). -/
def update_model_by_column (st : Storage) (model : List String) (db : List Row)
    (obj : List (String × FValue)) (allow_multiple : Bool)
    (kwargs : List (String × FValue)) : Except PyError Nat × List Row :=
  match (parse_filters model kwargs).1 with
  | .error e => (.error e, db)
  | .ok filters =>
    let total := st.runCount filters db
    if allow_multiple = false ∧ 1 < total then
      (.error (.multipleResultsError "Only one record is expected to be updated."), db)
    else
      let r := st.runUpdate filters obj db
      (.ok r.1, r.2)

/-- Embedding of `CRUDPlus.delete_model_by_column` (my_crud.py lines
131-154): compile filters, count, guard, then either physically delete or
(logical deletion) update the flag column to True; in both modes the
returned value is total_count, the pre-mutation count. -/
def delete_model_by_column (st : Storage) (model : List String) (db : List Row)
    (allow_multiple logical_deletion : Bool) (deleted_flag_column : String)
    (kwargs : List (String × FValue)) : Except PyError Nat × List Row :=
  match (parse_filters model kwargs).1 with
  | .error e => (.error e, db)
  | .ok filters =>
    let total := st.runCount filters db
    if allow_multiple = false ∧ 1 < total then
      (.error (.multipleResultsError "Only one record is expected to be deleted."), db)
    else
      let r :=
        if logical_deletion then
          st.runUpdate filters [(deleted_flag_column, FValue.bool true)] db
        else
          st.runDelete filters db
      (.ok total, r.2)

/-- Embedding of `CRUDPlus.delete_model` (my_crud.py lines 122-129):
delete by primary key, returning the reported rowcount of the executed
delete statement. -/
def delete_model (st : Storage) (pkCol : String) (db : List Row) (pk : FValue) :
    Except PyError Nat × List Row :=
  let r := st.runDelete [FExpr.app "eq" (FExpr.column pkCol) [FExpr.lit pk]] db
  (.ok r.1, r.2)

/-- Rows matching a conjunction of filters, given a semantics for single
predicates. -/
def matchesAll (sem : FExpr → Row → Bool) (filters : List FExpr) (r : Row) : Bool :=
  filters.all (fun f => sem f r)

/-- Update one row field (replace if present, else append), used by the
concrete storage below. -/
def setField (r : Row) (k : String) (v : FValue) : Row :=
  if r.any (fun p => p.1 = k)
  then r.map (fun p => if p.1 = k then (k, v) else p)
  else r ++ [(k, v)]

/-- A concrete list-backed storage for the given predicate semantics:
count is the number of matching rows, update rewrites matching rows and
reports how many matched, delete removes matching rows and reports how
many were removed. Used to witness the CRUD theorems. -/
def listStorage (sem : FExpr → Row → Bool) : Storage where
  runCount := fun fs rows => (rows.filter (matchesAll sem fs)).length
  runUpdate := fun fs vals rows =>
    ((rows.filter (matchesAll sem fs)).length,
     rows.map (fun r =>
       if matchesAll sem fs r
       then vals.foldl (fun acc p => setField acc p.1 p.2) r
       else r))
  runDelete := fun fs rows =>
    ((rows.filter (matchesAll sem fs)).length,
     rows.filter (fun r => !matchesAll sem fs r))

/-- Specification-side description of the or-group disjuncts: per inner
entry in order, the known builders applied to the column and inner value,
unknown inner operators contributing nothing. -/
def orExpected (column : FExpr) (entries : List (String × FValue)) : List FExpr :=
  entries.filterMap (fun p =>
    if p.1 ∈ supportedFilters then some (FExpr.app p.1 column [FExpr.lit p.2]) else none)

/-- Specification-side description of the warnings emitted while
compiling an or-group: one unsupported-operator diagnostic per unknown
inner operator, in order. -/
def orWarnings (entries : List (String × FValue)) : List String :=
  entries.filterMap (fun p =>
    if p.1 ∈ supportedFilters then none else some (unsupportedWarning p.1))

/-- Specification-side description of one conjunct of the advanced
condition branch: the condition operator applied to the arithmetic
expression built from the column and the advanced value, with between
condition values unpacked positionally. -/
def condExpected (aop : String) (column : FExpr) (advV : FValue)
    (p : String × FValue) : FExpr :=
  if p.1 = "between"
  then FExpr.app p.1 (FExpr.app aop column [FExpr.lit advV]) ((elems p.2).map FExpr.lit)
  else FExpr.app p.1 (FExpr.app aop column [FExpr.lit advV]) [FExpr.lit p.2]

/-- Recognizer for a raised ColumnSortError. -/
def isColumnSortErr : Except PyError (List OrderClause) → Bool
  | .error (.columnSortError _) => true
  | _ => false

/-- Recognizer for a raised ValueError. -/
def isValueErr : Except PyError (List OrderClause) → Bool
  | .error (.valueError _) => true
  | _ => false

/-- A storage collaborator whose reported affected-row counts (7 for
update, 99 for delete) deliberately differ from its count-query result
(1), used to witness which of the two numbers each CRUD operation
returns. -/
def contrastStorage : Storage where
  runCount := fun _ _ => 1
  runUpdate := fun _ _ rows => (7, rows)
  runDelete := fun _ rows => (99, rows)

theorem seq_sub_supported : ∀ a ∈ seqValueOps, a ∈ supportedFilters := by decide

theorem arith_sub_supported : ∀ a ∈ arithmeticOps, a ∈ supportedFilters := by decide

theorem arith_not_seq : ∀ a ∈ arithmeticOps, a ∉ seqValueOps := by decide

theorem arith_ne_or : ∀ a ∈ arithmeticOps, a ≠ "or" := by decide

theorem or_not_supported : "or" ∉ supportedFilters := by decide

theorem or_not_seq : "or" ∉ seqValueOps := by decide

theorem or_not_arith : "or" ∉ arithmeticOps := by decide

theorem gsf_unsupported (op : String) (v : FValue) (allow : Bool)
    (h1 : op ∉ supportedFilters) :
    get_sqlalchemy_filter op v allow = (.ok none, [unsupportedWarning op]) := by
  have h2 : op ∉ seqValueOps := fun h => h1 (seq_sub_supported op h)
  have h3 : op ∉ arithmeticOps := fun h => h1 (arith_sub_supported op h)
  unfold get_sqlalchemy_filter
  rw [if_neg (fun hc => h2 hc.1), if_neg (fun hc => h3 hc.1), if_neg h1]

theorem gsf_supported (op : String) (v : FValue) (allow : Bool)
    (h : op ∈ supportedFilters)
    (h2 : op ∈ seqValueOps → isSeqValue v = true)
    (h3 : allow = false → op ∉ arithmeticOps) :
    get_sqlalchemy_filter op v allow = (.ok (some op), []) := by
  unfold get_sqlalchemy_filter
  rw [if_neg (fun hc => by rw [h2 hc.1] at hc; exact absurd hc.2 (by decide)),
    if_neg (fun hc => h3 hc.2 hc.1), if_pos h]

theorem gsf_seq_err (op : String) (v : FValue) (allow : Bool)
    (h1 : op ∈ seqValueOps) (h2 : isSeqValue v = false) :
    get_sqlalchemy_filter op v allow =
      (.error (.selectOperatorError
        ("The value for <" ++ op ++ "> must be tuple, list, or set.")), []) := by
  unfold get_sqlalchemy_filter
  rw [if_pos ⟨h1, h2⟩]

theorem gsf_arith_err (op : String) (v : FValue) (h1 : op ∈ arithmeticOps) :
    get_sqlalchemy_filter op v false =
      (.error (.selectOperatorError
        ("Nested arithmetic operations are not allowed: " ++ op)), []) := by
  unfold get_sqlalchemy_filter
  rw [if_neg (fun hc => arith_not_seq op h1 hc.1), if_pos ⟨h1, rfl⟩]

theorem rsplitOnceL_tail_none (c : Char) (rest : List Char)
    (h : rsplitOnceL (c :: rest) = none) : rsplitOnceL rest = none := by
  cases hre : rsplitOnceL rest with
  | none => rfl
  | some p =>
    obtain ⟨a, b⟩ := p
    simp only [rsplitOnceL, hre] at h
    exact Option.noConfusion h

theorem rsplitOnceL_eq (cs : List Char) :
    ∀ f o, rsplitOnceL cs = some (f, o) →
      cs = f ++ '_' :: '_' :: o ∧ rsplitOnceL o = none := by
  induction cs with
  | nil => intro f o h; simp [rsplitOnceL] at h
  | cons c rest ih =>
    intro f o h
    cases hre : rsplitOnceL rest with
    | some p =>
      obtain ⟨f0, o0⟩ := p
      simp only [rsplitOnceL, hre, Option.some.injEq, Prod.mk.injEq] at h
      obtain ⟨hf, ho⟩ := h
      obtain ⟨h1, h2⟩ := ih f0 o0 hre
      subst hf; subst ho
      exact ⟨by rw [h1]; rfl, h2⟩
    | none =>
      simp only [rsplitOnceL, hre] at h
      by_cases hcond : c = '_' ∧ rest.head? = some '_'
      · rw [if_pos hcond] at h
        obtain ⟨hc1, hc2⟩ := hcond
        subst hc1
        cases rest with
        | nil => simp at hc2
        | cons r rs =>
          simp only [List.head?_cons, Option.some.injEq] at hc2
          subst hc2
          simp only [List.tail_cons, Option.some.injEq, Prod.mk.injEq] at h
          obtain ⟨hf, ho⟩ := h
          subst hf
          subst ho
          exact ⟨rfl, rsplitOnceL_tail_none _ rs hre⟩
      · rw [if_neg hcond] at h
        exact absurd h (by simp)

theorem orFold_ok (column : FExpr) (entries : List (String × FValue))
    (h : ∀ p ∈ entries, p.1 ∈ seqValueOps → isSeqValue p.2 = true) :
    orFold column entries = (.ok (orExpected column entries), orWarnings entries) := by
  induction entries with
  | nil => rfl
  | cons p rest ih =>
    obtain ⟨o, v⟩ := p
    have hrest := ih (fun q hq hs => h q (List.mem_cons_of_mem _ hq) hs)
    by_cases hsup : o ∈ supportedFilters
    · have hg := gsf_supported o v true hsup (h (o, v) (List.mem_cons_self _ _))
        (fun hf => absurd hf (by decide))
      simp [orFold, hg, hrest, orExpected, orWarnings, hsup]
    · have hg := gsf_unsupported o v true hsup
      simp [orFold, hg, hrest, orExpected, orWarnings, hsup]

theorem condFold_ok (aop : String) (column : FExpr) (advV : FValue)
    (centries : List (String × FValue))
    (h : ∀ p ∈ centries, p.1 ∈ supportedFilters ∧ p.1 ∉ arithmeticOps ∧
         (p.1 ∈ seqValueOps → isSeqValue p.2 = true)) :
    condFold (some aop) column advV centries =
      (.ok (centries.map (condExpected aop column advV)), []) := by
  induction centries with
  | nil => rfl
  | cons p rest ih =>
    obtain ⟨co, cv⟩ := p
    obtain ⟨h1, h2, h3⟩ := h (co, cv) (List.mem_cons_self _ _)
    have hg := gsf_supported co cv false h1 h3 (fun _ => h2)
    have hrest := ih (fun q hq => h q (List.mem_cons_of_mem _ hq))
    simp [condFold, hg, hrest, condExpected]

theorem condFold_nested_arith (outer : Option String) (column : FExpr)
    (advV : FValue) (cop : String) (cval : FValue)
    (rest : List (String × FValue)) (h1 : cop ∈ arithmeticOps) :
    condFold outer column advV ((cop, cval) :: rest) =
      (.error (.selectOperatorError
        ("Nested arithmetic operations are not allowed: " ++ cop)), []) := by
  simp [condFold, gsf_arith_err cop cval h1]

theorem processKey_unknown_plain (model : List String) (key field op : String)
    (v : FValue) (hsplit : rsplitKey key = some (field, op)) (hfm : field ∈ model)
    (hop : op ∉ supportedFilters) (hor : op ≠ "or") (hadv : isAdvanced v = false) :
    processKey model key v = (.ok [], [unsupportedWarning op]) := by
  simp [processKey, hsplit, get_column, hfm, gsf_unsupported op v true hop, hor, hadv]

theorem processKey_or (model : List String) (key field : String)
    (entries : List (String × FValue)) (fs : List FExpr) (ws : List String)
    (hsplit : rsplitKey key = some (field, "or")) (hfm : field ∈ model)
    (horf : orFold (FExpr.column field) entries = (.ok fs, ws)) :
    processKey model key (.dict entries) =
      (.ok [FExpr.orAll fs], unsupportedWarning "or" :: ws) := by
  simp [processKey, hsplit, get_column, hfm,
    gsf_unsupported "or" (.dict entries) true or_not_supported, horf]

theorem processKey_seq_err (model : List String) (key field op : String)
    (v : FValue) (hsplit : rsplitKey key = some (field, op)) (hfm : field ∈ model)
    (hseq : op ∈ seqValueOps) (hv : isSeqValue v = false) :
    processKey model key v =
      (.error (.selectOperatorError
        ("The value for <" ++ op ++ "> must be tuple, list, or set.")), []) := by
  simp [processKey, hsplit, get_column, hfm, gsf_seq_err op v true hseq hv]

theorem processKey_advanced_ok (model : List String) (key field aop : String)
    (des centries : List (String × FValue))
    (hsplit : rsplitKey key = some (field, aop)) (hfm : field ∈ model)
    (haop : aop ∈ arithmeticOps)
    (hadv : isAdvanced (.dict des) = true)
    (hcond : dictGet (.dict des) "condition" = .dict centries)
    (hc : ∀ p ∈ centries, p.1 ∈ supportedFilters ∧ p.1 ∉ arithmeticOps ∧
         (p.1 ∈ seqValueOps → isSeqValue p.2 = true)) :
    processKey model key (.dict des) =
      (.ok [FExpr.andAll (centries.map
        (condExpected aop (FExpr.column field) (dictGet (.dict des) "value")))], []) := by
  have hg := gsf_supported aop (.dict des) true (arith_sub_supported aop haop)
    (fun hx => absurd hx (arith_not_seq aop haop)) (fun hx => absurd hx (by decide))
  have hcf := condFold_ok aop (FExpr.column field) (dictGet (.dict des) "value") centries hc
  simp [processKey, hsplit, get_column, hfm, hg, arith_ne_or aop haop, hadv, hcond, hcf]

theorem processKey_advanced_err (model : List String) (key field aop : String)
    (des centries : List (String × FValue)) (fopt : Option String)
    (w1 ws : List String) (er : PyError)
    (hsplit : rsplitKey key = some (field, aop)) (hfm : field ∈ model)
    (hg : get_sqlalchemy_filter aop (.dict des) true = (.ok fopt, w1))
    (hor : aop ≠ "or")
    (hadv : isAdvanced (.dict des) = true)
    (hcond : dictGet (.dict des) "condition" = .dict centries)
    (hcf : condFold fopt (FExpr.column field) (dictGet (.dict des) "value") centries
      = (.error er, ws)) :
    processKey model key (.dict des) = (.error er, w1 ++ ws) := by
  simp [processKey, hsplit, get_column, hfm, hg, hor, hadv, hcond, hcf]

theorem processKey_advanced_not_skipped (model : List String)
    (key field op : String) (v : FValue)
    (hsplit : rsplitKey key = some (field, op)) (hfm : field ∈ model)
    (hop : op ∉ supportedFilters) (hor : op ≠ "or")
    (hadv : isAdvanced v = true) :
    (processKey model key v).1 ≠ Except.ok [] := by
  cases v with
  | dict des =>
    have hg := gsf_unsupported op (.dict des) true hop
    cases hcond : dictGet (FValue.dict des) "condition" with
    | dict centries =>
      cases hcf : condFold none (FExpr.column field)
          (dictGet (FValue.dict des) "value") centries with
      | mk res ws =>
        cases res with
        | error e => simp [processKey, hsplit, get_column, hfm, hg, hor, hadv, hcond, hcf]
        | ok cfs => simp [processKey, hsplit, get_column, hfm, hg, hor, hadv, hcond, hcf]
    | pynone => simp [processKey, hsplit, get_column, hfm, hg, hor, hadv, hcond]
    | int n => simp [processKey, hsplit, get_column, hfm, hg, hor, hadv, hcond]
    | str s => simp [processKey, hsplit, get_column, hfm, hg, hor, hadv, hcond]
    | bool b => simp [processKey, hsplit, get_column, hfm, hg, hor, hadv, hcond]
    | list xs => simp [processKey, hsplit, get_column, hfm, hg, hor, hadv, hcond]
    | tuple xs => simp [processKey, hsplit, get_column, hfm, hg, hor, hadv, hcond]
    | set xs => simp [processKey, hsplit, get_column, hfm, hg, hor, hadv, hcond]
  | pynone => simp [isAdvanced] at hadv
  | int n => simp [isAdvanced] at hadv
  | str s => simp [isAdvanced] at hadv
  | bool b => simp [isAdvanced] at hadv
  | list xs => simp [isAdvanced] at hadv
  | tuple xs => simp [isAdvanced] at hadv
  | set xs => simp [isAdvanced] at hadv

theorem parse_filters_cons (model : List String) (k : String) (v : FValue)
    (rest : List (String × FValue)) (fs : List FExpr) (ws : List String)
    (h : processKey model k v = (.ok fs, ws)) :
    parse_filters model ((k, v) :: rest) =
      ((parse_filters model rest).1.map (fun fs2 => fs ++ fs2),
        ws ++ (parse_filters model rest).2) := by
  simp [parse_filters, h]

theorem parse_filters_err (model : List String) (k : String) (v : FValue)
    (rest : List (String × FValue)) (e : PyError) (ws : List String)
    (h : processKey model k v = (.error e, ws)) :
    parse_filters model ((k, v) :: rest) = (.error e, ws) := by
  simp [parse_filters, h]

theorem parse_filters_skip (model : List String) (k : String) (v : FValue)
    (ws : List String) (h : processKey model k v = (.ok [], ws)) :
    ∀ pre post, (parse_filters model (pre ++ (k, v) :: post)).1
      = (parse_filters model (pre ++ post)).1 := by
  intro pre
  induction pre with
  | nil =>
    intro post
    simp only [List.nil_append]
    rw [parse_filters_cons model k v post [] ws h]
    cases hres : (parse_filters model post).1 with
    | error e => simp [hres, Except.map]
    | ok fs2 => simp [hres, Except.map]
  | cons p pre ih =>
    intro post
    obtain ⟨k0, v0⟩ := p
    cases hp : processKey model k0 v0 with
    | mk res ws0 =>
      cases res with
      | error e =>
        simp [List.cons_append, parse_filters_err model k0 v0 _ e ws0 hp]
      | ok fs0 =>
        simp [List.cons_append, parse_filters_cons model k0 v0 _ fs0 ws0 hp, ih post]

theorem sortLoop_ok (model : List String) :
    ∀ pairs stmt, (∀ p ∈ pairs, p.1 ∈ model) →
      sortLoop model stmt pairs =
        .ok (stmt ++ pairs.map (fun p =>
          if p.2 = "asc" then OrderClause.ascOf p.1 else OrderClause.descOf p.1)) := by
  intro pairs
  induction pairs with
  | nil => intro stmt _; simp [sortLoop]
  | cons p rest ih =>
    intro stmt h
    obtain ⟨c, o⟩ := p
    have hc : c ∈ model := h (c, o) (List.mem_cons_self _ _)
    simp [sortLoop, get_column, hc, ih _ (fun q hq => h q (List.mem_cons_of_mem _ hq))]

theorem sortLoop_not_cserr (model : List String) :
    ∀ pairs stmt, isColumnSortErr (sortLoop model stmt pairs) = false := by
  intro pairs
  induction pairs with
  | nil => intro stmt; rfl
  | cons p rest ih =>
    intro stmt
    obtain ⟨c, o⟩ := p
    by_cases hc : c ∈ model
    · simp [sortLoop, get_column, hc, ih]
    · simp [sortLoop, get_column, hc, isColumnSortErr]

theorem sortLoop_not_verr (model : List String) :
    ∀ pairs stmt, isValueErr (sortLoop model stmt pairs) = false := by
  intro pairs
  induction pairs with
  | nil => intro stmt; rfl
  | cons p rest ih =>
    intro stmt
    obtain ⟨c, o⟩ := p
    by_cases hc : c ∈ model
    · simp [sortLoop, get_column, hc, ih]
    · simp [sortLoop, get_column, hc, isValueErr]

theorem zip_replicate_asc :
    ∀ cols : List String,
      cols.zip (List.replicate cols.length "asc") = cols.map (fun c => (c, "asc")) := by
  intro cols
  induction cols with
  | nil => rfl
  | cons c cs ih => simp [List.replicate_succ, ih]

/-- C1: every call to update_model_by_column or delete_model_by_column
with allow_multiple false whose compiled filters match more than one row
(the guard's count query returns a value above 1) raises
MultipleResultsError, and the stored rows after the call equal the rows
before it. Since this holds for every storage collaborator, including
those whose update and delete executors always change the rows, no
update or delete statement was executed. -/
theorem c1_guard_blocks_multi_row_mutation
    (st : Storage) (model : List String) (db : List Row)
    (obj kwargs : List (String × FValue)) (lg : Bool) (flag : String)
    (filters : List FExpr)
    (hp : (parse_filters model kwargs).1 = .ok filters)
    (hcount : 1 < st.runCount filters db) :
    update_model_by_column st model db obj false kwargs
      = (.error (.multipleResultsError "Only one record is expected to be updated."), db)
    ∧ delete_model_by_column st model db false lg flag kwargs
      = (.error (.multipleResultsError "Only one record is expected to be deleted."), db) := by
  constructor
  · simp [update_model_by_column, hp, hcount]
  · simp [delete_model_by_column, hp, hcount]

/-- Witness for C1 at a concrete two-row store with an empty filter
specification matching both rows. -/
theorem c1_guard_blocks_multi_row_mutation_witness :
    update_model_by_column (listStorage (fun _ _ => true)) ["id"]
        [[("id", FValue.int 1)], [("id", FValue.int 2)]] [] false []
      = (.error (.multipleResultsError "Only one record is expected to be updated."),
         [[("id", FValue.int 1)], [("id", FValue.int 2)]])
    ∧ delete_model_by_column (listStorage (fun _ _ => true)) ["id"]
        [[("id", FValue.int 1)], [("id", FValue.int 2)]] false false "del_flag" []
      = (.error (.multipleResultsError "Only one record is expected to be deleted."),
         [[("id", FValue.int 1)], [("id", FValue.int 2)]]) :=
  c1_guard_blocks_multi_row_mutation (listStorage (fun _ _ => true)) ["id"]
    [[("id", FValue.int 1)], [("id", FValue.int 2)]] [] [] false "del_flag" []
    rfl (by decide)

/-- C2: whenever the multi-row guard passes, delete_model_by_column
returns the pre-mutation matched-row count computed by the guard's count
query (for both physical and logical deletion), whereas
update_model_by_column returns the affected-row count reported by the
executed update statement and the primary-key-based delete_model returns
the count reported by the executed delete statement. -/
theorem c2_return_value_conventions
    (st : Storage) (model : List String) (db : List Row)
    (obj kwargs : List (String × FValue)) (am lg : Bool) (flag : String)
    (pkCol : String) (pk : FValue) (filters : List FExpr)
    (hp : (parse_filters model kwargs).1 = .ok filters)
    (hguard : am = true ∨ st.runCount filters db ≤ 1) :
    (delete_model_by_column st model db am lg flag kwargs).1
      = .ok (st.runCount filters db)
    ∧ (update_model_by_column st model db obj am kwargs).1
      = .ok (st.runUpdate filters obj db).1
    ∧ (delete_model st pkCol db pk).1
      = .ok (st.runDelete [FExpr.app "eq" (FExpr.column pkCol) [FExpr.lit pk]] db).1 := by
  have hng : ¬ (am = false ∧ 1 < st.runCount filters db) := by
    rcases hguard with h | h
    · intro hc; rw [h] at hc; exact absurd hc.1 (by decide)
    · intro hc; exact absurd hc.2 (by omega)
  refine ⟨?_, ?_, rfl⟩
  · simp [delete_model_by_column, hp, hng]
  · simp [update_model_by_column, hp, hng]

/-- Witness for C2 against the contrast storage: delete-by-filter
returns the count-query value 1 and not the executor-reported 99, while
update-by-filter returns the executor-reported 7 and delete-by-key the
executor-reported 99. -/
theorem c2_return_value_conventions_witness :
    (delete_model_by_column contrastStorage ["f"] [] false true "del_flag" []).1 = .ok 1
    ∧ (update_model_by_column contrastStorage ["f"] [] [] false []).1 = .ok 7
    ∧ (delete_model contrastStorage "id" [] (FValue.int 3)).1 = .ok 99 :=
  c2_return_value_conventions contrastStorage ["f"] [] [] [] false true "del_flag"
    "id" (FValue.int 3) [] rfl (Or.inr (by decide))

/-- C3 counterexample: the unknown operator frobnicate with a value that
is a mapping containing both value and condition keys makes parse_filters
abort with a TypeError (the missing builder, None, is called), instead of
warning and skipping the key as the claim states. -/
theorem c3_unknown_operator_aborts_cex :
    parse_filters ["f"]
      [("f__frobnicate", FValue.dict
        [("value", FValue.int 1), ("condition", FValue.dict [("gt", FValue.int 2)])])]
      = (.error (.typeError "NoneType object is not callable"),
         [unsupportedWarning "frobnicate"]) := rfl

/-- C3 (amended): for every key whose operator is not in the operator
table and is not the or marker, provided the field part resolves to a
column: if the value is not a mapping containing both value and
condition keys, parse_filters emits a non-fatal unsupported-operator
warning and returns the same predicate list as for the mapping with that
key removed; if the value is such a mapping the key is never skipped:
the result is never the one the claim predicts (the empty contribution
of a dropped key), compilation instead raising an exception (as in the
counterexample's TypeError) or appending a predicate for the key. -/
theorem c3_unknown_operator_warns_and_skips_amended :
    (∀ model key field op v, rsplitKey key = some (field, op) →
       field ∈ model → op ∉ supportedFilters → op ≠ "or" → isAdvanced v = false →
       processKey model key v = (.ok [], [unsupportedWarning op]))
    ∧ (∀ model key field op v pre post, rsplitKey key = some (field, op) →
       field ∈ model → op ∉ supportedFilters → op ≠ "or" → isAdvanced v = false →
       (parse_filters model (pre ++ (key, v) :: post)).1
         = (parse_filters model (pre ++ post)).1)
    ∧ (∀ model key field op v, rsplitKey key = some (field, op) →
       field ∈ model → op ∉ supportedFilters → op ≠ "or" → isAdvanced v = true →
       (processKey model key v).1 ≠ Except.ok []) := by
  refine ⟨?_, ?_, ?_⟩
  · intro model key field op v hs hf hop hor hadv
    exact processKey_unknown_plain model key field op v hs hf hop hor hadv
  · intro model key field op v pre post hs hf hop hor hadv
    exact parse_filters_skip model key v [unsupportedWarning op]
      (processKey_unknown_plain model key field op v hs hf hop hor hadv) pre post
  · intro model key field op v hs hf hop hor hadv
    exact processKey_advanced_not_skipped model key field op v hs hf hop hor hadv

/-- Witness for C3 (amended): a concrete unknown-operator key with a
scalar value warns and contributes nothing, removing it from a mapping
leaves the compiled predicate list unchanged, and the same operator with
a value/condition mapping (here with an empty condition, the one
advanced shape that does not raise) still does not contribute the
dropped-key result. -/
theorem c3_unknown_operator_warns_and_skips_amended_witness :
    processKey ["f"] "f__frobnicate" (FValue.int 5)
      = (.ok [], [unsupportedWarning "frobnicate"])
    ∧ (parse_filters ["f"] [("f", FValue.int 0), ("f__frobnicate", FValue.int 5)]).1
      = (parse_filters ["f"] [("f", FValue.int 0)]).1
    ∧ (processKey ["f"] "f__frobnicate"
        (FValue.dict [("value", FValue.int 1), ("condition", FValue.dict [])])).1
      ≠ Except.ok [] :=
  ⟨c3_unknown_operator_warns_and_skips_amended.1 ["f"] "f__frobnicate" "f" "frobnicate"
     (FValue.int 5) rfl (by decide) (by decide) (by decide) rfl,
   c3_unknown_operator_warns_and_skips_amended.2.1 ["f"] "f__frobnicate" "f" "frobnicate"
     (FValue.int 5) [("f", FValue.int 0)] [] rfl (by decide) (by decide) (by decide) rfl,
   c3_unknown_operator_warns_and_skips_amended.2.2 ["f"] "f__frobnicate" "f" "frobnicate"
     (FValue.dict [("value", FValue.int 1), ("condition", FValue.dict [])])
     rfl (by decide) (by decide) (by decide) rfl⟩

/-- C4: for every key with an arithmetic operator and a value mapping
containing both value and condition keys, parse_filters appends exactly
one predicate, the conjunction over all condition entries of comparing
the arithmetic result (column op value) by that entry's operator and
operand; the concrete example f__mul with value 2 and condition gt 10
yields the single predicate and of (f mul 2) gt 10; and an arithmetic
operator appearing inside condition fails with the nested-arithmetic
error. -/
theorem c4_arithmetic_condition_filter :
    (∀ model key field aop des centries,
       rsplitKey key = some (field, aop) → field ∈ model →
       aop ∈ arithmeticOps →
       isAdvanced (.dict des) = true →
       dictGet (.dict des) "condition" = .dict centries →
       (∀ p ∈ centries, p.1 ∈ supportedFilters ∧ p.1 ∉ arithmeticOps ∧
          (p.1 ∈ seqValueOps → isSeqValue p.2 = true)) →
       processKey model key (.dict des)
         = (.ok [FExpr.andAll (centries.map
             (condExpected aop (FExpr.column field) (dictGet (.dict des) "value")))], []))
    ∧ (∀ model key field aop des cop cval crest,
       rsplitKey key = some (field, aop) → field ∈ model →
       aop ∈ arithmeticOps →
       isAdvanced (.dict des) = true →
       dictGet (.dict des) "condition" = .dict ((cop, cval) :: crest) →
       cop ∈ arithmeticOps →
       processKey model key (.dict des)
         = (.error (.selectOperatorError
             ("Nested arithmetic operations are not allowed: " ++ cop)), []))
    ∧ parse_filters ["f"]
        [("f__mul", FValue.dict [("value", FValue.int 2),
          ("condition", FValue.dict [("gt", FValue.int 10)])])]
      = (.ok [FExpr.andAll [FExpr.app "gt"
          (FExpr.app "mul" (FExpr.column "f") [FExpr.lit (FValue.int 2)])
          [FExpr.lit (FValue.int 10)]]], []) := by
  refine ⟨?_, ?_, rfl⟩
  · intro model key field aop des centries hs hf ha hadv hcond hc
    exact processKey_advanced_ok model key field aop des centries hs hf ha hadv hcond hc
  · intro model key field aop des cop cval crest hs hf ha hadv hcond hcop
    have hg := gsf_supported aop (.dict des) true (arith_sub_supported aop ha)
      (fun hx => absurd hx (arith_not_seq aop ha)) (fun hx => absurd hx (by decide))
    have hcf := condFold_nested_arith (some aop) (FExpr.column field)
      (dictGet (.dict des) "value") cop cval crest hcop
    have h := processKey_advanced_err model key field aop des ((cop, cval) :: crest)
      (some aop) [] []
      (.selectOperatorError ("Nested arithmetic operations are not allowed: " ++ cop))
      hs hf hg (arith_ne_or aop ha) hadv hcond hcf
    simpa using h

/-- Witness for C4 at concrete inputs: the mul-with-gt-condition example
builds the conjunction predicate, and an add operator nested inside
condition raises the nested-arithmetic SelectOperatorError. -/
theorem c4_arithmetic_condition_filter_witness :
    processKey ["f"] "f__mul"
        (FValue.dict [("value", FValue.int 2), ("condition", FValue.dict [("gt", FValue.int 10)])])
      = (.ok [FExpr.andAll [FExpr.app "gt"
          (FExpr.app "mul" (FExpr.column "f") [FExpr.lit (FValue.int 2)])
          [FExpr.lit (FValue.int 10)]]], [])
    ∧ processKey ["f"] "f__mul"
        (FValue.dict [("value", FValue.int 2), ("condition", FValue.dict [("add", FValue.int 3)])])
      = (.error (.selectOperatorError "Nested arithmetic operations are not allowed: add"), []) :=
  ⟨c4_arithmetic_condition_filter.1 ["f"] "f__mul" "f" "mul"
     [("value", FValue.int 2), ("condition", FValue.dict [("gt", FValue.int 10)])]
     [("gt", FValue.int 10)] rfl (by decide) (by decide) rfl rfl (by decide),
   c4_arithmetic_condition_filter.2.1 ["f"] "f__mul" "f" "mul"
     [("value", FValue.int 2), ("condition", FValue.dict [("add", FValue.int 3)])]
     "add" (FValue.int 3) [] rfl (by decide) (by decide) rfl rfl (by decide)⟩

/-- C5: for every or-key whose value is a mapping of operator names to
values (each with a valid value shape), parse_filters appends exactly one
predicate, the disjunction of applying each known inner operator's
builder to the column and its value, with unknown inner operators
skipped rather than failing. -/
theorem c5_or_group_single_disjunction
    (model : List String) (key field : String) (entries : List (String × FValue))
    (hsplit : rsplitKey key = some (field, "or")) (hfm : field ∈ model)
    (hshape : ∀ p ∈ entries, p.1 ∈ seqValueOps → isSeqValue p.2 = true) :
    ∃ ws, processKey model key (.dict entries)
      = (.ok [FExpr.orAll (orExpected (FExpr.column field) entries)], ws) :=
  ⟨unsupportedWarning "or" :: orWarnings entries,
   processKey_or model key field entries (orExpected (FExpr.column field) entries)
     (orWarnings entries) hsplit hfm (orFold_ok (FExpr.column field) entries hshape)⟩

/-- Witness for C5: the gt-or-lt example compiles to the single
disjunction of f gt 5 and f lt 1, and an unknown inner operator is
skipped while the known one is kept. -/
theorem c5_or_group_single_disjunction_witness :
    (∃ ws, processKey ["f"] "f__or" (FValue.dict [("gt", FValue.int 5), ("lt", FValue.int 1)])
      = (.ok [FExpr.orAll [FExpr.app "gt" (FExpr.column "f") [FExpr.lit (FValue.int 5)],
              FExpr.app "lt" (FExpr.column "f") [FExpr.lit (FValue.int 1)]]], ws))
    ∧ (∃ ws, processKey ["f"] "f__or" (FValue.dict [("gt", FValue.int 5), ("frobnicate", FValue.int 0)])
      = (.ok [FExpr.orAll [FExpr.app "gt" (FExpr.column "f") [FExpr.lit (FValue.int 5)]]], ws)) :=
  ⟨c5_or_group_single_disjunction ["f"] "f__or" "f"
     [("gt", FValue.int 5), ("lt", FValue.int 1)] rfl (by decide) (by decide),
   c5_or_group_single_disjunction ["f"] "f__or" "f"
     [("gt", FValue.int 5), ("frobnicate", FValue.int 0)] rfl (by decide) (by decide)⟩

/-- C6: for every key using the in, not_in, or between operator whose
value is not a tuple, list, or set, compilation fails with the
invalid-operator-value SelectOperatorError and no predicate is built
(the error result carries an empty predicate list); with a list value
the in example succeeds. -/
theorem c6_sequence_operator_value_check :
    (∀ model key field op v, rsplitKey key = some (field, op) → field ∈ model →
       op ∈ seqValueOps → isSeqValue v = false →
       processKey model key v = (.error (.selectOperatorError
         ("The value for <" ++ op ++ "> must be tuple, list, or set.")), []))
    ∧ parse_filters ["f"] [("f__in", FValue.list [FValue.int 1, FValue.int 2, FValue.int 3])]
      = (.ok [FExpr.app "in" (FExpr.column "f")
          [FExpr.lit (FValue.list [FValue.int 1, FValue.int 2, FValue.int 3])]], []) :=
  ⟨fun model key field op v hs hf hq hv => processKey_seq_err model key field op v hs hf hq hv,
   rfl⟩

/-- Witness for C6: a scalar value for the in operator raises the
invalid-operator-value SelectOperatorError. -/
theorem c6_sequence_operator_value_check_witness :
    processKey ["f"] "f__in" (FValue.int 5)
      = (.error (.selectOperatorError "The value for <in> must be tuple, list, or set."), []) :=
  c6_sequence_operator_value_check.1 ["f"] "f__in" "f" "in" (FValue.int 5)
    rfl (by decide) (by decide) rfl

/-- C7: parse_filters splits a delimiter-bearing key at the last
occurrence of the double-underscore delimiter: whenever the splitter
returns field and operator parts, the key is exactly field, delimiter,
operator with no delimiter occurring in the operator part (so the split
point is the last occurrence, never the first), and concretely the key
a__b__gt resolves to field a__b with operator gt. -/
theorem c7_last_delimiter_split :
    (∀ cs f o, rsplitOnceL cs = some (f, o) →
       cs = f ++ '_' :: '_' :: o ∧ rsplitOnceL o = none)
    ∧ rsplitKey "a__b__gt" = some ("a__b", "gt")
    ∧ processKey ["a__b", "a"] "a__b__gt" (FValue.int 5)
      = (.ok [FExpr.app "gt" (FExpr.column "a__b") [FExpr.lit (FValue.int 5)]], []) :=
  ⟨fun cs f o h => rsplitOnceL_eq cs f o h, rfl, rfl⟩

/-- Witness for C7 applied at the concrete key a__b__gt: the recombined
parts give back the key and the operator part contains no delimiter. -/
theorem c7_last_delimiter_split_witness :
    "a__b__gt".data = "a__b".data ++ '_' :: '_' :: "gt".data
    ∧ rsplitOnceL "gt".data = none :=
  c7_last_delimiter_split.1 "a__b__gt".data "a__b".data "gt".data rfl

/-- C8 counterexample: with sort_columns a one-element list and
sort_orders supplied as an empty list, the promoted lengths differ
(1 versus 0), yet apply_sorting raises no ColumnSortError and instead
sorts ascending, because Python truthiness treats the supplied empty
list as absent; this refutes the claim that ColumnSortError is raised
exactly when the promoted lengths differ. -/
theorem c8_sort_empty_orders_cex :
    (some (StrOrList.l ([] : List String))).isSome = true
    ∧ (promoteO (some (StrOrList.l ["a"]))).length
        ≠ (promoteO (some (StrOrList.l ([] : List String)))).length
    ∧ apply_sorting ["a"] [] (some (StrOrList.l ["a"])) (some (StrOrList.l []))
        = .ok [OrderClause.ascOf "a"] :=
  ⟨rfl, by decide, rfl⟩

/-- C8 (amended): apply_sorting raises ValueError exactly when
sort_orders is truthy (a nonempty string or nonempty list) while
sort_columns is falsy (absent, empty string, or empty list); it raises
ColumnSortError exactly when both are truthy and their
singleton-promoted lengths differ; and when sort_orders is falsy every
resolvable column is given the ascending direction. -/
theorem c8_sorting_error_conditions_amended :
    (∀ model stmt sc so, isValueErr (apply_sorting model stmt sc so) = true
       ↔ (truthyO so = true ∧ truthyO sc = false))
    ∧ (∀ model stmt sc so, isColumnSortErr (apply_sorting model stmt sc so) = true
       ↔ (truthyO sc = true ∧ truthyO so = true ∧
          (promoteO sc).length ≠ (promoteO so).length))
    ∧ (∀ model stmt sc so, truthyO sc = true → truthyO so = false →
       (∀ c ∈ promoteO sc, c ∈ model) →
       apply_sorting model stmt sc so
         = .ok (stmt ++ (promoteO sc).map OrderClause.ascOf)) := by
  refine ⟨?_, ?_, ?_⟩
  · intro model stmt sc so
    cases hso : truthyO so with
    | false =>
      cases hsc : truthyO sc with
      | false => simp [apply_sorting, hso, hsc, isValueErr]
      | true => simp [apply_sorting, hso, hsc, sortLoop_not_verr]
    | true =>
      cases hsc : truthyO sc with
      | false => simp [apply_sorting, hso, hsc, isValueErr]
      | true =>
        by_cases hlen : (promoteO sc).length ≠ (promoteO so).length
        · simp [apply_sorting, hso, hsc, hlen, isValueErr]
        · simp [apply_sorting, hso, hsc, hlen, sortLoop_not_verr]
  · intro model stmt sc so
    cases hso : truthyO so with
    | false =>
      cases hsc : truthyO sc with
      | false => simp [apply_sorting, hso, hsc, isColumnSortErr]
      | true => simp [apply_sorting, hso, hsc, sortLoop_not_cserr]
    | true =>
      cases hsc : truthyO sc with
      | false => simp [apply_sorting, hso, hsc, isColumnSortErr]
      | true =>
        by_cases hlen : (promoteO sc).length ≠ (promoteO so).length
        · simp [apply_sorting, hso, hsc, hlen, isColumnSortErr]
        · simp [apply_sorting, hso, hsc, hlen, sortLoop_not_cserr]
  · intro model stmt sc so hsc hso hcols
    have hmem : ∀ p ∈ (promoteO sc).map (fun c => (c, "asc")), p.1 ∈ model := by
      intro p hp
      obtain ⟨c, hc, rfl⟩ := List.mem_map.mp hp
      exact hcols c hc
    simp [apply_sorting, hsc, hso, zip_replicate_asc,
      sortLoop_ok model ((promoteO sc).map (fun c => (c, "asc"))) stmt hmem,
      List.map_map, Function.comp]

/-- Witness for C8 (amended): with two valid columns and absent
sort_orders, both columns are sorted ascending. -/
theorem c8_sorting_error_conditions_amended_witness :
    apply_sorting ["a", "b"] [] (some (StrOrList.l ["a", "b"])) none
      = .ok [OrderClause.ascOf "a", OrderClause.ascOf "b"] :=
  c8_sorting_error_conditions_amended.2.2 ["a", "b"] [] (some (StrOrList.l ["a", "b"]))
    none rfl rfl (by decide)

/-- C9: compiling an or-key always emits an unsupported-operator warning
naming the or operator itself as the first warning, because parse_filters
looks the or marker up in the operator table (where it is absent) before
entering the or-group branch; the disjunction predicate is nonetheless
built and appended, and when every inner operator is unknown an empty
disjunction is still appended. -/
theorem c9_or_key_always_warns
    (model : List String) (key field : String) (entries : List (String × FValue))
    (hsplit : rsplitKey key = some (field, "or")) (hfm : field ∈ model)
    (hshape : ∀ p ∈ entries, p.1 ∈ seqValueOps → isSeqValue p.2 = true) :
    (processKey model key (.dict entries)).2.head? = some (unsupportedWarning "or")
    ∧ (processKey model key (.dict entries)).1
        = .ok [FExpr.orAll (orExpected (FExpr.column field) entries)]
    ∧ ((∀ p ∈ entries, p.1 ∉ supportedFilters) →
       (processKey model key (.dict entries)).1 = .ok [FExpr.orAll []]) := by
  have h := processKey_or model key field entries (orExpected (FExpr.column field) entries)
    (orWarnings entries) hsplit hfm (orFold_ok (FExpr.column field) entries hshape)
  refine ⟨by simp [h], by simp [h], ?_⟩
  intro hall
  have hempty : orExpected (FExpr.column field) entries = [] := by
    unfold orExpected
    rw [List.filterMap_eq_nil_iff]
    intro p hp
    rw [if_neg (hall p hp)]
  simp [h, hempty]

/-- Witness for C9: an or-group whose only inner operator is unknown
still warns about the or operator first and appends the empty
disjunction. -/
theorem c9_or_key_always_warns_witness :
    (processKey ["f"] "f__or" (FValue.dict [("frobnicate", FValue.int 0)])).2.head?
        = some (unsupportedWarning "or")
    ∧ (processKey ["f"] "f__or" (FValue.dict [("frobnicate", FValue.int 0)])).1
        = .ok [FExpr.orAll []] :=
  ⟨(c9_or_key_always_warns ["f"] "f__or" "f" [("frobnicate", FValue.int 0)]
      rfl (by decide) (by decide)).1,
   (c9_or_key_always_warns ["f"] "f__or" "f" [("frobnicate", FValue.int 0)]
      rfl (by decide) (by decide)).2.2 (by decide)⟩

/-- C10: in apply_sorting every direction string other than exactly asc,
including desc but also unrecognized values such as uppercase ASC or
ascending, produces a descending ordering clause for its column, and no
error is ever raised on account of a direction string: for arbitrary
direction strings of matching length over resolvable columns the call
succeeds and each clause is ascending exactly when its direction string
equals asc. -/
theorem c10_non_asc_directions_sort_descending
    (model : List String) (stmt : List OrderClause) (cols ords : List String)
    (hne : cols ≠ []) (hlen : cols.length = ords.length)
    (hcols : ∀ c ∈ cols, c ∈ model) :
    apply_sorting model stmt (some (.l cols)) (some (.l ords))
      = .ok (stmt ++ (cols.zip ords).map (fun p =>
          if p.2 = "asc" then OrderClause.ascOf p.1 else OrderClause.descOf p.1)) := by
  have hone : ords ≠ [] := by
    intro h
    rw [h] at hlen
    simp at hlen
    exact hne hlen
  have hz : ∀ p ∈ cols.zip ords, p.1 ∈ model := by
    intro p hp
    obtain ⟨a, b⟩ := p
    exact hcols a (List.of_mem_zip hp).1
  simp [apply_sorting, truthyO, truthy, hne, hone, promoteO, hlen,
    sortLoop_ok model (cols.zip ords) stmt hz]

/-- Witness for C10: direction strings ASC, desc and ascending all
produce descending clauses, with no error. -/
theorem c10_non_asc_directions_sort_descending_witness :
    apply_sorting ["a", "b", "c"] [] (some (StrOrList.l ["a", "b", "c"]))
        (some (StrOrList.l ["ASC", "desc", "ascending"]))
      = .ok [OrderClause.descOf "a", OrderClause.descOf "b", OrderClause.descOf "c"] :=
  c10_non_asc_directions_sort_descending ["a", "b", "c"] [] ["a", "b", "c"]
    ["ASC", "desc", "ascending"] (by decide) rfl (by decide)
